import Mathlib

/-!
Formal model of the kiji news ingestion pipeline: the article downloader
(downloader.py, class KijiDownloader) and the database uploader
(uploader.py, class KijiUploader).

Python values are modelled shallowly: strings as `String` / `List Char`,
exceptions as an explicit result type, the sqlite articles table as a list
of rows, parsed HTML pages as a tree of element and text nodes, and the
wall clock (datetime.datetime.now()) as an explicit parameter.
-/

set_option autoImplicit false

/-- The Python exception kinds that can arise on the modelled code paths. -/
inductive PyExc where
  | attributeError
  | indexError
  | typeError
  | valueError
  /-- urllib.request.URLError; urllib HTTPError is a subclass of it. -/
  | urlError
  | otherError
deriving DecidableEq

/-- Result of running a piece of Python code: a value, or an uncaught
exception escaping it. -/
inductive PyResult (α : Type) where
  | ok (val : α)
  | exn (e : PyExc)
deriving DecidableEq

/-- A wall-clock instant as produced by datetime.datetime.now(). -/
structure PyDT where
  year : Nat
  month : Nat
  day : Nat
  hour : Nat
  minute : Nat
  second : Nat
deriving DecidableEq

/-- Zero-padded two-digit field of strftime. -/
def pad2 (n : Nat) : String :=
  if n < 10 then "0" ++ toString n else toString n

/-- Zero-padded four-digit year field of strftime("%Y"). -/
def pad4 (n : Nat) : String :=
  if n < 10 then "000" ++ toString n
  else if n < 100 then "00" ++ toString n
  else if n < 1000 then "0" ++ toString n
  else toString n

/-- strftime("%Y-%m-%d %H:%M:%S") on a datetime value. -/
def fmtDT (t : PyDT) : String :=
  pad4 t.year ++ "-" ++ pad2 t.month ++ "-" ++ pad2 t.day ++ " " ++
    pad2 t.hour ++ ":" ++ pad2 t.minute ++ ":" ++ pad2 t.second

/-- Gregorian leap-year rule used by datetime. -/
def isLeap (y : Nat) : Bool :=
  y % 4 == 0 && (!(y % 100 == 0) || y % 400 == 0)

/-- Number of days in a month, as enforced by the datetime constructor. -/
def daysInMonth (y m : Nat) : Nat :=
  if m == 2 then (if isLeap y then 29 else 28)
  else if m == 4 || m == 6 || m == 9 || m == 11 then 30
  else 31

/-- Validity condition of datetime.datetime(y, m, d, h, mi): the
constructor raises ValueError outside these bounds (MINYEAR = 1,
MAXYEAR = 9999). -/
def validDT (y m d h mi : Nat) : Bool :=
  decide (1 ≤ y) && decide (y ≤ 9999) &&
  decide (1 ≤ m) && decide (m ≤ 12) &&
  decide (1 ≤ d) && decide (d ≤ daysInMonth y m) &&
  decide (h ≤ 23) && decide (mi ≤ 59)

/-- strftime("%Y-%m-%d %H:%M:%S") of datetime(y, m, d, h, mi); the
seconds component defaults to 0. -/
def fmtYMD (y m d h mi : Nat) : String :=
  pad4 y ++ "-" ++ pad2 m ++ "-" ++ pad2 d ++ " " ++
    pad2 h ++ ":" ++ pad2 mi ++ ":00"

/-- First match of the Python regex pattern (\d*)<marker> in a string, as
re.findall(pattern, dt)[0]: `none` when the marker character does not
occur at all (findall returns the empty list); otherwise the maximal run
of digits immediately preceding the first occurrence of the marker
(possibly empty, since the digit group is starred). -/
def firstGroup (marker : Char) (s : List Char) : Option (List Char) :=
  if marker ∈ s then
    some (((s.takeWhile (fun c => c ≠ marker)).reverse.takeWhile
      (fun c => c.isDigit)).reverse)
  else
    none

/-- Value of int() on a nonempty ASCII digit string. -/
def digitsToNat (ds : List Char) : Nat :=
  ds.foldl (fun acc c => acc * 10 + (c.toNat - '0'.toNat)) 0

/-- Outcome of the five sequential group extractions in
jp_date_to_yyyymmdd, performed in the order year, month, day, hour,
minute; the first failing extraction decides the outcome. -/
inductive Extract5 where
  /-- Some findall call returned an empty list, so indexing [0] raised
  IndexError (which the function catches). -/
  | absent
  /-- Some group matched the empty string, so int() raised ValueError
  (which the function does not catch). -/
  | badInt
  | vals (y m d h mi : Nat)
deriving DecidableEq

/-- The five group extractions of jp_date_to_yyyymmdd, in program order. -/
def extract5 (s : List Char) : Extract5 :=
  match firstGroup '年' s with
  | none => .absent
  | some [] => .badInt
  | some (y :: ys) =>
    match firstGroup '月' s with
    | none => .absent
    | some [] => .badInt
    | some (m :: ms) =>
      match firstGroup '日' s with
      | none => .absent
      | some [] => .badInt
      | some (d :: ds) =>
        match firstGroup '時' s with
        | none => .absent
        | some [] => .badInt
        | some (h :: hs) =>
          match firstGroup '分' s with
          | none => .absent
          | some [] => .badInt
          | some (mi :: mis) =>
            .vals (digitsToNat (y :: ys)) (digitsToNat (m :: ms))
              (digitsToNat (d :: ds)) (digitsToNat (h :: hs))
              (digitsToNat (mi :: mis))

/-- KijiDownloader.jp_date_to_yyyymmdd. The default result is
datetime.now() formatted; the try block extracts the five numeric groups
and builds datetime(yyyy, mm, dd, hour, minute). Only TypeError and
IndexError are caught (yielding the fallback); a ValueError raised by
int applied to an empty group match or by the datetime constructor on an
invalid calendar date escapes the function. -/
def jp_date_to_yyyymmdd (now : PyDT) (dt : String) : PyResult String :=
  match extract5 dt.data with
  | .absent => .ok (fmtDT now)
  | .badInt => .exn .valueError
  | .vals y m d h mi =>
    if validDT y m d h mi then .ok (fmtYMD y m d h mi)
    else .exn .valueError

/-! ### HTML model and BeautifulSoup operations

A parsed page is a forest of nodes; an element node carries its tag name
and the whitespace-split value of its class attribute. Only the
operations used by the adapters are modelled: descendant search in
document (preorder) order, text extraction, and span removal
(Tag.decompose). The forest type is its own inductive so that all
traversals are structural and compute inside the kernel. -/

mutual
/-- A node of a parsed HTML document. -/
inductive Html where
  | el (tag : String) (classes : List String) (children : HtmlList)
  | txt (s : String)
/-- A forest of HTML nodes. -/
inductive HtmlList where
  | nil
  | cons (h : Html) (t : HtmlList)
end

/-- Build an `HtmlList` from a list literal. -/
def hl : List Html → HtmlList
  | [] => .nil
  | h :: t => .cons h (hl t)

/-- All element nodes of a forest, in document (preorder) order; each
element is listed before its descendants. This is the traversal order of
BeautifulSoup find / find_all. -/
def elemsList : HtmlList → List Html
  | .nil => []
  | .cons (.txt _) t => elemsList t
  | .cons (.el n c ch) t => .el n c ch :: (elemsList ch ++ elemsList t)

/-- Tag-name test for a node. -/
def isTag (nm : String) : Html → Bool
  | .el n _ _ => n == nm
  | .txt _ => false

/-- The class attribute match used by find with a class query q: the
query matches a single class of the element or the full space-joined
attribute value. Elements without the queried class do not match. -/
def classMatch (q : String) : Html → Bool
  | .el _ cs _ => cs.contains q || q == String.intercalate " " cs
  | .txt _ => false

/-- The children of a node. -/
def childrenOf : Html → HtmlList
  | .el _ _ ch => ch
  | .txt _ => .nil

/-- soup.find_all(tag) over a whole page. -/
def findAllTag (nm : String) (page : HtmlList) : List Html :=
  (elemsList page).filter (isTag nm)

/-- soup.find_all with a tag name and a class query over a whole page. -/
def findAllTagClass (nm cls : String) (page : HtmlList) : List Html :=
  (elemsList page).filter (fun e => isTag nm e && classMatch cls e)

/-- tag.find(nm): first matching element among the strict descendants of
a node. -/
def findTagIn (nm : String) (h : Html) : Option Html :=
  ((elemsList (childrenOf h)).filter (isTag nm)).head?

/-- Concatenation of the text descendants of a forest, in document order. -/
def textsOf : HtmlList → String
  | .nil => ""
  | .cons (.txt s) t => s ++ textsOf t
  | .cons (.el _ _ ch) t => textsOf ch ++ textsOf t

/-- Tag.text: concatenation of all text descendants, in document order. -/
def textOf : Html → String
  | .txt s => s
  | .el _ _ ch => textsOf ch

/-- Remove the first (preorder) element with the given tag from a forest,
together with its whole subtree, as span_tag.decompose() does. The Bool
records whether a removal happened. -/
def rmFirstL (nm : String) : HtmlList → Bool × HtmlList
  | .nil => (false, .nil)
  | .cons (.txt s) t =>
    let r := rmFirstL nm t
    (r.1, .cons (.txt s) r.2)
  | .cons (.el n c ch) t =>
    if n == nm then (true, t)
    else
      let rc := rmFirstL nm ch
      if rc.1 then (true, .cons (.el n c rc.2) t)
      else
        let rt := rmFirstL nm t
        (rt.1, .cons (.el n c ch) rt.2)

/-- Remove the first descendant with the given tag from inside a node. -/
def rmFirstIn (nm : String) : Html → Html
  | .txt s => .txt s
  | .el n c ch => .el n c (rmFirstL nm ch).2

/-- Apply `f` to the n-th (0-based, preorder) element with the given tag
inside a forest, leaving everything else unchanged. Returns `some k`
with the number of matches still to skip when the target was not yet
found, `none` once `f` has been applied. -/
def modNthL (nm : String) (f : Html → Html) : Nat → HtmlList → Option Nat × HtmlList
  | n, .nil => (some n, .nil)
  | n, .cons (.txt s) t =>
    let r := modNthL nm f n t
    (r.1, .cons (.txt s) r.2)
  | n, .cons (.el en c ch) t =>
    if en == nm then
      if n = 0 then (none, .cons (f (.el en c ch)) t)
      else
        let rc := modNthL nm f (n - 1) ch
        match rc.1 with
        | none => (none, .cons (.el en c rc.2) t)
        | some n1 =>
          let rt := modNthL nm f n1 t
          (rt.1, .cons (.el en c rc.2) rt.2)
    else
      let rc := modNthL nm f n ch
      match rc.1 with
      | none => (none, .cons (.el en c rc.2) t)
      | some n1 =>
        let rt := modNthL nm f n1 t
        (rt.1, .cons (.el en c rc.2) rt.2)

/-- The page after the Asahi title step: decomposing the first span of
the last h1 element mutates the page tree seen by the subsequent date and
body extractions. When the page has no h1 the page is unchanged. -/
def stripTitleSpan (page : HtmlList) : HtmlList :=
  let k := (findAllTag "h1" page).length
  if k = 0 then page
  else (modNthL "h1" (rmFirstIn "span") (k - 1) page).2

/-! ### Article adapters (download_articles_nhk / download_articles_asahi)

Each adapter takes the parsed page (the network fetch and lxml parse are
abstracted into the `page` argument) and the current wall-clock time (the
implicit input of the date fallback), and returns (title, date, body) or
an uncaught exception. -/

/-- Concatenation of p_tag.text over the p descendants of a div, as the
body_text += p_tag.text loop. -/
def joinPTexts (divEl : Html) : String :=
  ((elemsList (childrenOf divEl)).filter (isTag "p")).foldl
    (fun acc pEl => acc ++ textOf pEl) ""

/-- The NHK title block: page.find of the first h1 of class content--title, then
the text of its first span. A missing h1 or a missing span raises
AttributeError, which the block catches, leaving the title "". -/
def nhk_title_field (page : HtmlList) : String :=
  match (findAllTagClass "h1" "content--title" page).head? with
  | none => ""
  | some h1 =>
    match findTagIn "span" h1 with
    | none => ""
    | some sp => textOf sp

/-- The NHK date block: page.find of the first p of class content--date, the text
of its time element, passed through jp_date_to_yyyymmdd. Missing elements
raise AttributeError, caught by the block (date stays ""); an error from
jp_date_to_yyyymmdd is not caught. -/
def nhk_date_field (now : PyDT) (page : HtmlList) : PyResult String :=
  match (findAllTagClass "p" "content--date" page).head? with
  | none => .ok ""
  | some pEl =>
    match findTagIn "time" pEl with
    | none => .ok ""
    | some tEl => jp_date_to_yyyymmdd now (textOf tEl)

/-- The NHK body block: the text of p.content--summary when present,
otherwise the concatenated p texts of div with class attribute
"maincontent_body text"; a missing div raises AttributeError, caught by
the block (body stays ""). -/
def nhk_body_field (page : HtmlList) : String :=
  match (findAllTagClass "p" "content--summary" page).head? with
  | some sumEl => textOf sumEl
  | none =>
    match (findAllTagClass "div" "maincontent_body text" page).head? with
    | none => ""
    | some divEl => joinPTexts divEl

/-- KijiDownloader.download_articles_nhk, lines 256-304: the three
extraction blocks in program order. The title block cannot raise past its
except clause; the date block propagates any error of
jp_date_to_yyyymmdd (a ValueError is not an AttributeError), aborting the
function; otherwise all three fields are returned. -/
def download_articles_nhk (now : PyDT) (page : HtmlList) :
    PyResult (String × String × String) :=
  let title_text :=
    match (findAllTagClass "h1" "content--title" page).head? with
    | none => ""
    | some h1 =>
      match findTagIn "span" h1 with
      | none => ""
      | some sp => textOf sp
  match (match (findAllTagClass "p" "content--date" page).head? with
         | none => PyResult.ok ""
         | some pEl =>
           match findTagIn "time" pEl with
           | none => PyResult.ok ""
           | some tEl => jp_date_to_yyyymmdd now (textOf tEl)) with
  | .exn e => .exn e
  | .ok date_text =>
    let body_text :=
      match (findAllTagClass "p" "content--summary" page).head? with
      | some sumEl => textOf sumEl
      | none =>
        match (findAllTagClass "div" "maincontent_body text" page).head? with
        | none => ""
        | some divEl => joinPTexts divEl
    .ok (title_text, date_text, body_text)

/-- The Asahi title block: h1_tags = page.find_all of h1; h1_tags[-1]
raises IndexError when the page has no h1 element, and IndexError is not
an AttributeError, so it escapes the adapter. Otherwise the first span of
the last h1 is decomposed (when present) and the remaining text is the
title. -/
def asahi_title_field (page : HtmlList) : PyResult String :=
  match (findAllTag "h1" page).getLast? with
  | none => .exn .indexError
  | some h1 =>
    if (findTagIn "span" h1).isSome then .ok (textOf (rmFirstIn "span" h1))
    else .ok (textOf h1)

/-- The page seen by the Asahi date and body blocks: decompose() in the
title block has already removed the first span of the last h1. -/
def asahi_page1 (page : HtmlList) : HtmlList :=
  match (findAllTag "h1" page).getLast? with
  | none => page
  | some h1 =>
    if (findTagIn "span" h1).isSome then stripTitleSpan page else page

/-- The Asahi date block: the text of the first time element through
jp_date_to_yyyymmdd; a missing time element raises AttributeError, caught
by the block (date stays ""); an error of jp_date_to_yyyymmdd is not. -/
def asahi_date_field (now : PyDT) (page1 : HtmlList) : PyResult String :=
  match (findAllTag "time" page1).head? with
  | none => .ok ""
  | some tEl => jp_date_to_yyyymmdd now (textOf tEl)

/-- The Asahi body block: concatenated p texts of div.nfyQp; a missing
div raises AttributeError, caught by the block (body stays ""). -/
def asahi_body_field (page1 : HtmlList) : String :=
  match (findAllTagClass "div" "nfyQp" page1).head? with
  | none => ""
  | some divEl => joinPTexts divEl

/-- KijiDownloader.download_articles_asahi, lines 207-254: the three
extraction blocks in program order. h1_tags[-1] raises an uncaught
IndexError when the page has no h1; decomposing the title span mutates
the page seen by the date and body blocks; an error of
jp_date_to_yyyymmdd propagates. -/
def download_articles_asahi (now : PyDT) (page : HtmlList) :
    PyResult (String × String × String) :=
  match (findAllTag "h1" page).getLast? with
  | none => .exn .indexError
  | some h1 =>
    let hasSp := (findTagIn "span" h1).isSome
    let title_text := textOf (if hasSp then rmFirstIn "span" h1 else h1)
    let page1 := if hasSp then stripTitleSpan page else page
    match (match (findAllTag "time" page1).head? with
           | none => PyResult.ok ""
           | some tEl => jp_date_to_yyyymmdd now (textOf tEl)) with
    | .exn e => .exn e
    | .ok date_text =>
      let body_text :=
        match (findAllTagClass "div" "nfyQp" page1).head? with
        | none => ""
        | some divEl => joinPTexts divEl
      .ok (title_text, date_text, body_text)

/-! ### Feed link extraction (download_rss_nhk / download_rss_asahi)

Both functions run re.findall with the pattern <link>(.*)</link> and then
remove denylisted URLs with list.remove. In the regex, `.` does not match
a newline, so no match spans a line break and the scan decomposes into a
per-line scan; within a line the leftmost match starts at the first
occurrence of the open tag and the greedy group extends to the last
occurrence of the close tag, after which scanning resumes. -/

/-- Leftmost occurrence of `pat`: `some (before, after)` splits the
string around the first occurrence. -/
def splitFirst (pat : List Char) : List Char → Option (List Char × List Char)
  | [] => none
  | c :: cs =>
    if pat.isPrefixOf (c :: cs) then some ([], (c :: cs).drop pat.length)
    else (splitFirst pat cs).map (fun r => (c :: r.1, r.2))

/-- Rightmost occurrence of `pat`: `some (before, after)` splits the
string around the last occurrence. -/
def lastSplit (pat : List Char) : List Char → Option (List Char × List Char)
  | [] => none
  | c :: cs =>
    match lastSplit pat cs with
    | some r => some (c :: r.1, r.2)
    | none =>
      if pat.isPrefixOf (c :: cs) then some ([], (c :: cs).drop pat.length)
      else none

/-- The characters of the literal parts of the pattern. -/
def linkOpen : List Char := "<link>".data
def linkClose : List Char := "</link>".data

/-- The matches of the pattern on one newline-free line: leftmost start,
greedy group up to the last close tag, then resume after the match. The
fuel argument bounds the number of matches; each match consumes at least
13 characters, so fuel equal to the line length never runs out. -/
def lineSpansAux : Nat → List Char → List (List Char)
  | 0, _ => []
  | fuel + 1, s =>
    match splitFirst linkOpen s with
    | none => []
    | some pre_rest =>
      match lastSplit linkClose pre_rest.2 with
      | none => []
      | some mid_after => mid_after.1 :: lineSpansAux fuel mid_after.2

/-- All matches of the pattern on one line. -/
def lineSpans (s : List Char) : List (List Char) :=
  lineSpansAux s.length s

/-- Split a character list at every occurrence of a separator. -/
def splitOn (sep : Char) : List Char → List (List Char)
  | [] => [[]]
  | c :: cs =>
    if c = sep then [] :: splitOn sep cs
    else
      match splitOn sep cs with
      | [] => [[c]]
      | l :: ls => (c :: l) :: ls

/-- re.findall with the pattern <link>(.*)</link>: the per-line matches in
document order. -/
def findallLinkSpans (s : String) : List String :=
  (((splitOn '\n' s.data).map lineSpans).flatten).map (fun l => String.mk l)

/-- KijiDownloader.download_rss_nhk, lines 155-179; the fetch of the feed
URL is abstracted into the `fetched` argument. On a fetch error
(HTTPError or any other exception) the initial empty list is returned;
otherwise the link spans are extracted and, for each denylisted URL that
is present, list.remove deletes its first occurrence. -/
def download_rss_nhk (fetched : PyResult String) : List String :=
  let bad_urls : List String := ["http://www3.nhk.or.jp/news/"]
  match fetched with
  | .exn _ => []
  | .ok page_text =>
    bad_urls.foldl
      (fun acc bu => if bu ∈ acc then acc.erase bu else acc)
      (findallLinkSpans page_text)

/-- KijiDownloader.download_rss_asahi, lines 181-205: textually identical
to download_rss_nhk except for the denylist constant. -/
def download_rss_asahi (fetched : PyResult String) : List String :=
  let bad_urls : List String := ["https://www.asahi.com/"]
  match fetched with
  | .exn _ => []
  | .ok page_text =>
    bad_urls.foldl
      (fun acc bu => if bu ∈ acc then acc.erase bu else acc)
      (findallLinkSpans page_text)

/-! ### Per-source article loop (download_source)

The loop over the article URLs of one source, lines 134-153: the fetch
and parse of each URL (download_articles[datasource]) is abstracted into
the `env` argument. Only urllib URLError is caught (the article is
skipped); any other exception escapes and aborts the loop, losing the
whole batch. -/

/-- An assembled Article namedtuple: (title, body, pub_date, source,
genre), with source = datasource.value and genre = genre.value. -/
structure DlArticle where
  title : String
  body : String
  pub_date : String
  source : Nat
  genre : Nat
deriving DecidableEq

/-- The per-article loop of KijiDownloader.download_source. -/
def download_source (env : String → PyResult (String × String × String))
    (sourceCode genreCode : Nat) : List String → PyResult (List DlArticle)
  | [] => .ok []
  | au :: rest =>
    match env au with
    | .ok tdb =>
      match download_source env sourceCode genreCode rest with
      | .ok arts => .ok (⟨tdb.1, tdb.2.2, tdb.2.1, sourceCode, genreCode⟩ :: arts)
      | .exn e => .exn e
    | .exn e =>
      if e = .urlError then download_source env sourceCode genreCode rest
      else .exn e

/-! ### Uploader (uploader.py, class KijiUploader)

The articles table is modelled as the list of its rows, in insertion
order. Article tuples read from the CSV have the five columns
title, body, pub_date (strings) and source, genre (integers). The
relevant sqlite3 semantics is modelled for the two statements the class
uses: preparing a statement whose column list contains a token that is
not an identifier raises OperationalError; binding a parameter tuple
whose arity differs from the placeholder count raises ProgrammingError;
the UNIQUE constraint on title from CREATE_TABLES raises IntegrityError;
otherwise the row is appended and committed at once. -/

/-- One row of the articles CSV / one candidate row of the articles
table. -/
structure ArticleRow where
  title : String
  body : String
  pub_date : String
  source : Int
  genre : Int
deriving DecidableEq

/-- The sqlite3 exceptions raised by Cursor.execute in the model. -/
inductive SqlErr where
  | operationalError
  | programmingError
  | integrityError
deriving DecidableEq

/-- Outcome of one INSERT execution. -/
inductive SqlResult where
  | inserted (db : List ArticleRow)
  | err (e : SqlErr)
deriving DecidableEq

/-- KijiUploader.INSERT_ARTICLE, verbatim (uploader.py line 18). Note the
literal 0 inside the column list and the six placeholders. -/
def INSERT_ARTICLE : String :=
  "INSERT INTO articles (\x27title\x27, \x27body\x27, \x27pub_date\x27, \x27source\x27, \x27genre\x27, 0) VALUES (?,?,?,?,?, ?)"

/-- KijiUploader.CHECK_FOR_ARTICLE, verbatim (uploader.py line 17). -/
def CHECK_FOR_ARTICLE : String :=
  "SELECT * FROM articles WHERE TITLE = ? AND BODY = ? AND PUB_DATE = ? AND SOURCE = ? AND GENRE = ?"

/-- Characters allowed inside an identifier. -/
def identChar (c : Char) : Bool :=
  c.isAlpha || c.isDigit || c == '_'

/-- Strip spaces from both ends of a token. -/
def trimSpaces (t : List Char) : List Char :=
  ((t.dropWhile (fun c => c = ' ')).reverse.dropWhile (fun c => c = ' ')).reverse

/-- Whether a token is acceptable as a column name in an INSERT column
list: a bare identifier, or a single-quoted nonempty name (sqlite accepts
a string where a name is required). The token 0 is neither, and makes the
statement a syntax error. -/
def validColTok (t : List Char) : Bool :=
  match t with
  | [] => false
  | c :: cs =>
    if c = '\x27' then
      cs.getLast? == some '\x27' &&
        decide (cs.dropLast ≠ []) &&
        cs.dropLast.all (fun d => d ≠ '\x27')
    else
      (c.isAlpha || c == '_') && cs.all identChar

/-- Whether the column list of an INSERT statement (the text between the
first pair of parentheses) parses: every comma-separated token must be a
valid column name. -/
def insertColsOk (sql : String) : Bool :=
  let inner :=
    ((sql.data.dropWhile (fun c => c ≠ '(')).drop 1).takeWhile (fun c => c ≠ ')')
  (splitOn ',' inner).all (fun t => validColTok (trimSpaces t))

/-- Number of ? placeholders of a statement. -/
def countQM (sql : String) : Nat :=
  sql.data.count '?'

/-- self.db.execute(sql, article) followed by self.conn.commit(), for an
INSERT INTO articles statement, run against the current table contents:
prepare, bind the 5-tuple, check the UNIQUE title constraint, append. -/
def execInsert (sql : String) (db : List ArticleRow) (a : ArticleRow) : SqlResult :=
  if ¬ insertColsOk sql then .err .operationalError
  else if countQM sql ≠ 5 then .err .programmingError
  else if db.any (fun r => r.title == a.title) then .err .integrityError
  else .inserted (db ++ [a])

/-- KijiUploader.is_in_database: CHECK_FOR_ARTICLE matches a stored row
on all five fields. -/
def is_in_database (db : List ArticleRow) (a : ArticleRow) : Bool :=
  db.any (fun r =>
    r.title == a.title && r.body == a.body && r.pub_date == a.pub_date &&
      r.source == a.source && r.genre == a.genre)

/-- Result of the insertion loop of process_articles: the table contents,
the articles for which an execute was attempted (in order), and the
processed counters. -/
structure UploadOutcome where
  db : List ArticleRow
  attempts : List ArticleRow
  total : Nat
  success : Nat
  failure : Nat
deriving DecidableEq

/-- The insertion loop of process_articles (lines 117-128): every article
of the filtered list is attempted; a successful execute commits at once;
sqlite3.IntegrityError and any other exception are caught, counted as a
failure, and the loop continues with the table unchanged. -/
def insertLoop (sql : String) : List ArticleRow → List ArticleRow → UploadOutcome
  | [], db => ⟨db, [], 0, 0, 0⟩
  | a :: rest, db =>
    match execInsert sql db a with
    | .inserted db1 =>
      let r := insertLoop sql rest db1
      ⟨r.db, a :: r.attempts, r.total + 1, r.success + 1, r.failure⟩
    | .err _ =>
      let r := insertLoop sql rest db
      ⟨r.db, a :: r.attempts, r.total + 1, r.success, r.failure + 1⟩

/-- KijiUploader.process_articles (lines 98-134): the list comprehension
evaluates is_in_database for the whole batch against the table as it is
before any insertion of the batch, then the filtered articles are
inserted one by one. The statement string is a parameter so that the
behavior of the loop can be stated for any INSERT statement; the class always
passes INSERT_ARTICLE. -/
def process_articles (sql : String) (db : List ArticleRow)
    (articles : List ArticleRow) : UploadOutcome :=
  let filtered := articles.filter (fun a => !(is_in_database db a))
  insertLoop sql filtered db

/-- A well-formed variant of INSERT_ARTICLE (five placeholders, no
literal in the column list). Not part of the source; used to exercise the
non-error paths of the model. -/
def repairedInsertSQL : String :=
  "INSERT INTO articles (\x27title\x27, \x27body\x27, \x27pub_date\x27, \x27source\x27, \x27genre\x27) VALUES (?,?,?,?,?)"

/-- The five markers of the date pattern, in extraction order. -/
def jpMarkers : List Char := ['年', '月', '日', '時', '分']
/-- The NHK title as the claim describes it: the text of the last
top-level heading element matching the class content--title, with a
nested annotation span stripped before reading the text. -/
def spec_nhk_title (page : HtmlList) : String :=
  match (findAllTagClass "h1" "content--title" page).getLast? with
  | none => ""
  | some h1 => textOf (rmFirstIn "span" h1)
/-- The NHK title as the code computes it: the text of the first span
nested in the first heading matching the class content--title (empty when
heading or span is missing). -/
def spec_nhk_title_amended (page : HtmlList) : String :=
  match (findAllTagClass "h1" "content--title" page).head? with
  | none => ""
  | some h1 =>
    match findTagIn "span" h1 with
    | none => ""
    | some sp => textOf sp
/-- A page with two headings of the designated class; the first holds
span "A" and text "B", the last holds span "C" and text "D". -/
def c5Page : HtmlList :=
  hl [Html.el "h1" ["content--title"]
        (hl [Html.el "span" [] (hl [Html.txt "A"]), Html.txt "B"]),
      Html.el "h1" ["content--title"]
        (hl [Html.el "span" [] (hl [Html.txt "C"]), Html.txt "D"])]
/-- One line of a well-formed feed document. -/
def mkLine (u : List Char) : List Char := linkOpen ++ u ++ linkClose
/-- A feed document with one link element per line. -/
def mkFeedL : List (List Char) → List Char
  | [] => []
  | [u] => mkLine u
  | u :: v :: us => mkLine u ++ '\n' :: mkFeedL (v :: us)
/-- A feed document with one link element per line, over strings. -/
def mkFeed (us : List String) : String :=
  String.mk (mkFeedL (us.map String.data))

/-! ### Helper lemmas -/

/-- A concrete wall-clock instant used by concrete instances. -/
def sampleNow : PyDT := ⟨2024, 1, 2, 3, 4, 5⟩

theorem execInsert_inserted {sql : String} {db db1 : List ArticleRow}
    {a : ArticleRow} (h : execInsert sql db a = .inserted db1) :
    db1 = db ++ [a] := by
  unfold execInsert at h
  split at h
  · exact absurd h (by simp)
  · split at h
    · exact absurd h (by simp)
    · split at h
      · exact absurd h (by simp)
      · exact (SqlResult.inserted.injEq _ _).mp h.symm

theorem insertLoop_attempts (sql : String) :
    ∀ (arts : List ArticleRow) (db : List ArticleRow),
      (insertLoop sql arts db).attempts = arts := by
  intro arts
  induction arts with
  | nil => intro db; rfl
  | cons a rest ih =>
    intro db
    unfold insertLoop
    cases h : execInsert sql db a with
    | inserted db1 => simp [ih]
    | err e => simp [ih]

theorem insertLoop_total (sql : String) :
    ∀ (arts : List ArticleRow) (db : List ArticleRow),
      (insertLoop sql arts db).total = arts.length := by
  intro arts
  induction arts with
  | nil => intro db; rfl
  | cons a rest ih =>
    intro db
    unfold insertLoop
    cases h : execInsert sql db a with
    | inserted db1 => simp [ih]
    | err e => simp [ih]

theorem insertLoop_db_extends (sql : String) :
    ∀ (arts : List ArticleRow) (db : List ArticleRow),
      ∃ added, (insertLoop sql arts db).db = db ++ added := by
  intro arts
  induction arts with
  | nil => intro db; exact ⟨[], by simp [insertLoop]⟩
  | cons a rest ih =>
    intro db
    unfold insertLoop
    cases h : execInsert sql db a with
    | inserted db1 =>
      have hdb1 : db1 = db ++ [a] := execInsert_inserted h
      subst hdb1
      obtain ⟨added, hadd⟩ := ih (db ++ [a])
      exact ⟨[a] ++ added, by simpa using hadd⟩
    | err e =>
      obtain ⟨added, hadd⟩ := ih db
      exact ⟨added, by simpa using hadd⟩

/-! ### Claim theorems: uploader -/

/-- C1. The filter half of the claim holds (process_articles attempts
exactly the articles for which is_in_database is false), but no attempted
insertion ever adds a row: INSERT_ARTICLE is malformed (the literal 0 in
its column list is a syntax error at prepare time, and it carries six
placeholders for five-field article tuples), so every execute raises, is
caught by the loop, and is counted as a failure. Evaluated here at a
fresh article against an empty table, where no uniqueness constraint
could be violated. -/
theorem c1_insert_never_adds_row :
    (∀ (db : List ArticleRow) (a : ArticleRow),
      execInsert INSERT_ARTICLE db a = .err .operationalError)
    ∧ insertColsOk INSERT_ARTICLE = false
    ∧ countQM INSERT_ARTICLE = 6
    ∧ (process_articles INSERT_ARTICLE []
        [⟨"t", "b", "2021-05-03 09:15:00", 1, 1⟩]).attempts =
        [⟨"t", "b", "2021-05-03 09:15:00", 1, 1⟩]
    ∧ (process_articles INSERT_ARTICLE []
        [⟨"t", "b", "2021-05-03 09:15:00", 1, 1⟩]).db = []
    ∧ (process_articles INSERT_ARTICLE []
        [⟨"t", "b", "2021-05-03 09:15:00", 1, 1⟩]).success = 0
    ∧ (process_articles INSERT_ARTICLE []
        [⟨"t", "b", "2021-05-03 09:15:00", 1, 1⟩]).failure = 1 := by
  refine ⟨?_, by decide, by decide, by decide, by decide, by decide, by decide⟩
  intro db a
  have h : insertColsOk INSERT_ARTICLE = false := by decide
  simp [execInsert, h]

/-- C8. Every article of the filtered list is attempted regardless of
earlier failures (attempts = the whole list, total = its length), and the
table only ever grows by appended rows: the contents at the start of the
loop — including rows committed by earlier iterations, since the lemma
quantifies over every intermediate state — survive to the end, for any
INSERT statement text. -/
theorem c8_insertions_committed_independently :
    ∀ (sql : String) (db : List ArticleRow) (arts : List ArticleRow),
      (insertLoop sql arts db).attempts = arts
      ∧ (insertLoop sql arts db).total = arts.length
      ∧ (∃ added, (insertLoop sql arts db).db = db ++ added)
      ∧ ∀ batch : List ArticleRow,
          ∃ added, (process_articles sql db batch).db = db ++ added := by
  intro sql db arts
  refine ⟨insertLoop_attempts sql arts db, insertLoop_total sql arts db,
    insertLoop_db_extends sql arts db, ?_⟩
  intro batch
  exact insertLoop_db_extends sql _ db

/-- C9. The list comprehension of process_articles evaluates
is_in_database for the whole batch against the table as it was before any
insertion of the batch; hence two identical article tuples in one batch
both pass the filter and are both attempted, and under a well-formed
INSERT statement only the storage-layer UNIQUE constraint rejects the
duplicate. -/
theorem c9_filter_uses_pre_batch_state :
    ∀ (sql : String) (db : List ArticleRow) (batch : List ArticleRow),
      (process_articles sql db batch).attempts =
        batch.filter (fun a => !(is_in_database db a))
      ∧ (∀ a : ArticleRow, is_in_database db a = false →
          (process_articles sql db [a, a]).attempts = [a, a])
      ∧ (∀ a : ArticleRow,
          execInsert repairedInsertSQL [a] a = .err .integrityError) := by
  intro sql db batch
  refine ⟨insertLoop_attempts sql _ db, ?_, ?_⟩
  · intro a ha
    have : (([a, a] : List ArticleRow).filter
        (fun a => !(is_in_database db a))) = [a, a] := by
      simp [List.filter, ha]
    unfold process_articles
    rw [this]
    exact insertLoop_attempts sql _ db
  · intro a
    have h1 : insertColsOk repairedInsertSQL = true := by decide
    have h2 : countQM repairedInsertSQL = 5 := by decide
    simp [execInsert, h1, h2]

/-- Witness for c9_filter_uses_pre_batch_state at a concrete duplicate
batch against the empty table. -/
theorem c9_witness :
    is_in_database [] ⟨"t", "b", "d", 1, 1⟩ = false
    ∧ (process_articles INSERT_ARTICLE []
        [⟨"t", "b", "d", 1, 1⟩, ⟨"t", "b", "d", 1, 1⟩]).attempts =
        [⟨"t", "b", "d", 1, 1⟩, ⟨"t", "b", "d", 1, 1⟩] :=
  ⟨by decide,
    (c9_filter_uses_pre_batch_state INSERT_ARTICLE []
      [⟨"t", "b", "d", 1, 1⟩, ⟨"t", "b", "d", 1, 1⟩]).2.1
      ⟨"t", "b", "d", 1, 1⟩ (by decide)⟩

/-! ### Claim theorems: download_source -/

/-- C3 counterexample. The per-article loop catches only urllib URLError.
Here the article env raises the IndexError that download_articles_asahi
itself produces on a page with no h1 element: the exception escapes
download_source, the run aborts, and the second URL is never reached —
against the claim that any error is caught and the article skipped. -/
theorem c3_counterexample :
    download_source
      (fun _ => download_articles_asahi sampleNow
        (hl [Html.el "div" [] (hl [Html.txt "x"])]))
      2 1 ["http://u1", "http://u2"] = .exn .indexError := by decide

/-- C3 amended. At the per-article boundary only URLError (including its
subclass HTTPError) is caught: a URLError article is skipped, does not
appear in the batch, and the remaining URLs are still processed, so a run
of URLError/success articles yields exactly the successful ones in order;
any other exception propagates out of download_source and aborts the
loop. -/
theorem c3_amended_only_urlerror_caught :
    (∀ (env : String → PyResult (String × String × String)) (s g : Nat)
        (urls : List String),
      (∀ u ∈ urls, env u = .exn .urlError ∨ ∃ t d b, env u = .ok (t, d, b)) →
      download_source env s g urls =
        .ok (urls.filterMap (fun u =>
          match env u with
          | .ok tdb => some ⟨tdb.1, tdb.2.2, tdb.2.1, s, g⟩
          | .exn _ => none)))
    ∧ (∀ (env : String → PyResult (String × String × String)) (s g : Nat)
        (u : String) (rest : List String) (e : PyExc),
      e ≠ .urlError → env u = .exn e →
      download_source env s g (u :: rest) = .exn e) := by
  constructor
  · intro env s g urls h
    induction urls with
    | nil => rfl
    | cons u rest ih =>
      have hu := h u (by simp)
      have hrest := ih (fun v hv => h v (by simp [hv]))
      rcases hu with hu | ⟨t, d, b, hu⟩
      · simp [download_source, hu, hrest]
      · simp [download_source, hu, hrest]
  · intro env s g u rest e he hu
    simp [download_source, hu, he]

/-- Witness for c3_amended_only_urlerror_caught: a batch of three URLs
with one URLError yields the two successful articles, and a batch whose
first URL raises IndexError aborts. -/
theorem c3_witness :
    download_source
      (fun u => if u = "bad" then .exn .urlError else .ok ("T", "D", "B"))
      1 4 ["a", "bad", "c"] =
      .ok [⟨"T", "B", "D", 1, 4⟩, ⟨"T", "B", "D", 1, 4⟩]
    ∧ download_source (fun _ => .exn .indexError) 1 4 ["a"] =
        .exn .indexError := by
  constructor
  · have h := c3_amended_only_urlerror_caught.1
      (fun u => if u = "bad" then .exn .urlError else .ok ("T", "D", "B"))
      1 4 ["a", "bad", "c"]
      (by
        intro u hu
        simp only [List.mem_cons, List.not_mem_nil, or_false] at hu
        rcases hu with rfl | rfl | rfl
        · exact Or.inr ⟨"T", "D", "B", rfl⟩
        · exact Or.inl rfl
        · exact Or.inr ⟨"T", "D", "B", rfl⟩)
    simpa using h
  · exact c3_amended_only_urlerror_caught.2
      (fun _ => .exn .indexError) 1 4 "a" [] .indexError (by decide) rfl

/-! ### Claim theorems: date normalization -/

theorem firstGroup_eq_none {marker : Char} {s : List Char}
    (h : marker ∉ s) : firstGroup marker s = none := by
  simp [firstGroup, h]

theorem firstGroup_some_mem {marker : Char} {s g : List Char}
    (h : firstGroup marker s = some g) : marker ∈ s := by
  by_contra hn
  rw [firstGroup_eq_none hn] at h
  exact Option.noConfusion h


theorem extract5_eq_absent {dt : List Char}
    (habs : ∃ c ∈ jpMarkers, c ∉ dt)
    (hne : ∀ c ∈ jpMarkers, firstGroup c dt ≠ some []) :
    extract5 dt = .absent := by
  obtain ⟨c, hc, hnotin⟩ := habs
  have hmem : ∀ g, firstGroup c dt ≠ some g := by
    intro g hg
    exact hnotin (firstGroup_some_mem hg)
  unfold extract5
  cases h1 : firstGroup '年' dt with
  | none => rfl
  | some g1 =>
    cases g1 with
    | nil => exact absurd h1 (hne '年' (by simp [jpMarkers]))
    | cons a1 as1 =>
      cases h2 : firstGroup '月' dt with
      | none => rfl
      | some g2 =>
        cases g2 with
        | nil => exact absurd h2 (hne '月' (by simp [jpMarkers]))
        | cons a2 as2 =>
          cases h3 : firstGroup '日' dt with
          | none => rfl
          | some g3 =>
            cases g3 with
            | nil => exact absurd h3 (hne '日' (by simp [jpMarkers]))
            | cons a3 as3 =>
              cases h4 : firstGroup '時' dt with
              | none => rfl
              | some g4 =>
                cases g4 with
                | nil => exact absurd h4 (hne '時' (by simp [jpMarkers]))
                | cons a4 as4 =>
                  cases h5 : firstGroup '分' dt with
                  | none => rfl
                  | some g5 =>
                    cases g5 with
                    | nil => exact absurd h5 (hne '分' (by simp [jpMarkers]))
                    | cons a5 as5 =>
                      exfalso
                      simp only [jpMarkers, List.mem_cons,
                        List.not_mem_nil, or_false] at hc
                      rcases hc with rfl | rfl | rfl | rfl | rfl
                      · exact hmem _ h1
                      · exact hmem _ h2
                      · exact hmem _ h3
                      · exact hmem _ h4
                      · exact hmem _ h5

/-- C4 counterexample. The five groups of this input parse to the
calendar-invalid values (2021, 13, 1, 9, 15); the claim says the current
wall-clock fallback is returned, but the ValueError of the datetime
constructor is not among the caught exception types and escapes. -/
theorem c4_counterexample :
    jp_date_to_yyyymmdd sampleNow "2021年13月1日 9時15分" =
      .exn .valueError := by decide

/-- C4 amended. jp_date_to_yyyymmdd returns the formatted current time
when a group is absent — shown here for a missing year marker, which the
function probes first — and, when all five groups match, returns the
formatted parsed date for valid calendar values; but it raises ValueError
(rather than returning the fallback) when a group matches the empty
string or when the five values are not a valid calendar date. -/
theorem c4_amended_failure_policy :
    ∀ (now : PyDT) (dt : String),
      ('年' ∉ dt.data → jp_date_to_yyyymmdd now dt = .ok (fmtDT now))
      ∧ (extract5 dt.data = .badInt →
          jp_date_to_yyyymmdd now dt = .exn .valueError)
      ∧ (∀ y m d h mi, extract5 dt.data = .vals y m d h mi →
          (validDT y m d h mi = false →
            jp_date_to_yyyymmdd now dt = .exn .valueError)
          ∧ (validDT y m d h mi = true →
            jp_date_to_yyyymmdd now dt = .ok (fmtYMD y m d h mi))) := by
  intro now dt
  refine ⟨?_, ?_, ?_⟩
  · intro h
    have h1 : firstGroup '年' dt.data = none := firstGroup_eq_none h
    unfold jp_date_to_yyyymmdd extract5
    rw [h1]
  · intro h
    unfold jp_date_to_yyyymmdd
    rw [h]
  · intro y m d h mi hvals
    constructor
    · intro hv
      unfold jp_date_to_yyyymmdd
      rw [hvals]
      simp [hv]
    · intro hv
      unfold jp_date_to_yyyymmdd
      rw [hvals]
      simp [hv]

/-- Witness for c4_amended_failure_policy: a marker-free input falls
back to the formatted current time, and a year-zero input (all groups
present, calendar-invalid) raises ValueError. -/
theorem c4_witness :
    jp_date_to_yyyymmdd sampleNow "hello" = .ok (fmtDT sampleNow)
    ∧ jp_date_to_yyyymmdd sampleNow "0年1月1日 0時0分" = .exn .valueError :=
  ⟨(c4_amended_failure_policy sampleNow "hello").1 (by decide),
    ((c4_amended_failure_policy sampleNow "0年1月1日 0時0分").2.2
      0 1 1 0 0 (by decide)).1 (by decide)⟩

/-- C6 counterexample. This input is missing the minute marker, so the
claim maps it to the current-time fallback; but its year group matches
the empty string, and the year extraction runs first, so int raises
an uncaught ValueError instead. -/
theorem c6_counterexample :
    jp_date_to_yyyymmdd sampleNow "年5月3日 9時" = .exn .valueError := by
  decide

/-- C6 amended. The concrete mapping of the claim holds for every
wall-clock time, and an input missing one of the five unit markers maps
to the current-time fallback provided no present marker matches an empty
digit group (otherwise the earlier ValueError escape of
c6_counterexample applies). -/
theorem c6_amended_mapping :
    ∀ (now : PyDT),
      jp_date_to_yyyymmdd now "2021年5月3日 9時15分" =
        .ok "2021-05-03 09:15:00"
      ∧ ∀ dt : String,
          (∃ c ∈ jpMarkers, c ∉ dt.data) →
          (∀ c ∈ jpMarkers, firstGroup c dt.data ≠ some []) →
          jp_date_to_yyyymmdd now dt = .ok (fmtDT now) := by
  intro now
  constructor
  · have h : extract5 ("2021年5月3日 9時15分").data = .vals 2021 5 3 9 15 := by
      decide
    unfold jp_date_to_yyyymmdd
    rw [h]
    rfl
  · intro dt habs hne
    unfold jp_date_to_yyyymmdd
    rw [extract5_eq_absent habs hne]

/-- Witness for c6_amended_mapping: the concrete input of the claim maps to
its expected output, and the same input with the minute marker deleted
maps to the formatted current time. -/
theorem c6_witness :
    jp_date_to_yyyymmdd sampleNow "2021年5月3日 9時15分" =
      .ok "2021-05-03 09:15:00"
    ∧ jp_date_to_yyyymmdd sampleNow "2021年5月3日 9時15" =
      .ok (fmtDT sampleNow) :=
  ⟨(c6_amended_mapping sampleNow).1,
    (c6_amended_mapping sampleNow).2 "2021年5月3日 9時15"
      (by decide) (by decide)⟩

/-! ### Claim theorems: article adapters -/

theorem jp_date_err {now : PyDT} {dt : String} {e : PyExc}
    (h : jp_date_to_yyyymmdd now dt = .exn e) : e = .valueError := by
  unfold jp_date_to_yyyymmdd at h
  split at h
  · exact PyResult.noConfusion h
  · cases h; rfl
  · split at h
    · exact PyResult.noConfusion h
    · cases h; rfl

theorem nhk_date_err {now : PyDT} {page : HtmlList} {e : PyExc}
    (h : nhk_date_field now page = .exn e) : e = .valueError := by
  unfold nhk_date_field at h
  split at h
  · exact PyResult.noConfusion h
  · split at h
    · exact PyResult.noConfusion h
    · exact jp_date_err h

theorem asahi_date_err {now : PyDT} {page1 : HtmlList} {e : PyExc}
    (h : asahi_date_field now page1 = .exn e) : e = .valueError := by
  unfold asahi_date_field at h
  split at h
  · exact PyResult.noConfusion h
  · exact jp_date_err h

theorem nhk_decompose (now : PyDT) (page : HtmlList) :
    download_articles_nhk now page =
      match nhk_date_field now page with
      | .exn e => .exn e
      | .ok d => .ok (nhk_title_field page, d, nhk_body_field page) := rfl

theorem asahi_none (now : PyDT) (page : HtmlList)
    (hg : (findAllTag "h1" page).getLast? = none) :
    download_articles_asahi now page = .exn .indexError := by
  unfold download_articles_asahi
  rw [hg]

theorem asahi_decompose (now : PyDT) (page : HtmlList) (h1 : Html)
    (hg : (findAllTag "h1" page).getLast? = some h1) :
    download_articles_asahi now page =
      match asahi_date_field now (asahi_page1 page) with
      | .exn e => .exn e
      | .ok d =>
        .ok (textOf (if (findTagIn "span" h1).isSome then rmFirstIn "span" h1
               else h1),
          d, asahi_body_field (asahi_page1 page)) := by
  unfold download_articles_asahi asahi_page1 asahi_date_field asahi_body_field
  rw [hg]

/-- On a successful NHK return the three fields are each the value of
their own extraction block. -/
theorem nhk_ok_fields {now : PyDT} {page : HtmlList} {t d b : String}
    (h : download_articles_nhk now page = .ok (t, d, b)) :
    t = nhk_title_field page ∧ b = nhk_body_field page ∧
      nhk_date_field now page = .ok d := by
  rw [nhk_decompose now page] at h
  cases hd : nhk_date_field now page with
  | exn e => rw [hd] at h; exact PyResult.noConfusion h
  | ok d1 =>
    rw [hd] at h
    cases h
    exact ⟨rfl, rfl, rfl⟩

/-- C2 counterexample. A page with no h1 element: in the Asahi adapter
h1_tags[-1] raises IndexError, which its except AttributeError clauses do
not catch — an exception raised by element lookup escapes the adapter,
and no field of the article is produced. -/
theorem c2_counterexample :
    download_articles_asahi sampleNow
      (hl [Html.el "div" [] (hl [Html.txt "x"])]) = .exn .indexError := by
  decide

/-- C2 amended. Structural absence (AttributeError) is caught per field
in both variants, and on a successful return each field equals its own
independent extraction (over the decomposed page for Asahi date/body);
but the Asahi variant raises IndexError exactly on pages without any h1
element, and the only other escaping exception of either variant is the
ValueError of date normalization. -/
theorem c2_amended_field_isolation :
    ∀ (now : PyDT) (page : HtmlList),
      (download_articles_asahi now page = .exn .indexError ↔
        findAllTag "h1" page = [])
      ∧ (∀ e, download_articles_nhk now page = .exn e → e = .valueError)
      ∧ (∀ e, download_articles_asahi now page = .exn e →
          e = .indexError ∨ e = .valueError)
      ∧ (∀ t d b, download_articles_nhk now page = .ok (t, d, b) →
          t = nhk_title_field page ∧ b = nhk_body_field page ∧
            nhk_date_field now page = .ok d)
      ∧ (∀ t d b, download_articles_asahi now page = .ok (t, d, b) →
          asahi_title_field page = .ok t ∧
            b = asahi_body_field (asahi_page1 page) ∧
            asahi_date_field now (asahi_page1 page) = .ok d) := by
  intro now page
  refine ⟨⟨?_, ?_⟩, ?_, ?_, ?_, ?_⟩
  · intro h
    cases hg : (findAllTag "h1" page).getLast? with
    | none => exact List.getLast?_eq_none_iff.mp hg
    | some h1 =>
      exfalso
      rw [asahi_decompose now page h1 hg] at h
      cases hd : asahi_date_field now (asahi_page1 page) with
      | ok d => rw [hd] at h; exact PyResult.noConfusion h
      | exn e =>
        rw [hd] at h
        cases h
        exact PyExc.noConfusion (asahi_date_err hd)
  · intro h
    exact asahi_none now page (List.getLast?_eq_none_iff.mpr h)
  · intro e h
    rw [nhk_decompose now page] at h
    cases hd : nhk_date_field now page with
    | ok d => rw [hd] at h; exact PyResult.noConfusion h
    | exn e1 =>
      rw [hd] at h
      cases h
      exact nhk_date_err hd
  · intro e h
    cases hg : (findAllTag "h1" page).getLast? with
    | none =>
      rw [asahi_none now page hg] at h
      cases h
      exact Or.inl rfl
    | some h1 =>
      rw [asahi_decompose now page h1 hg] at h
      cases hd : asahi_date_field now (asahi_page1 page) with
      | ok d => rw [hd] at h; exact PyResult.noConfusion h
      | exn e1 =>
        rw [hd] at h
        cases h
        exact Or.inr (asahi_date_err hd)
  · intro t d b h
    exact nhk_ok_fields h
  · intro t d b h
    cases hg : (findAllTag "h1" page).getLast? with
    | none => rw [asahi_none now page hg] at h; exact PyResult.noConfusion h
    | some h1 =>
      rw [asahi_decompose now page h1 hg] at h
      cases hd : asahi_date_field now (asahi_page1 page) with
      | exn e => rw [hd] at h; exact PyResult.noConfusion h
      | ok d1 =>
        rw [hd] at h
        cases h
        refine ⟨?_, rfl, rfl⟩
        unfold asahi_title_field
        rw [hg]
        by_cases hs : (findTagIn "span" h1).isSome
        · simp [hs]
        · simp [hs]

/-- Witness for c2_amended_field_isolation: on a page holding a bare h1
and nothing else, the NHK variant returns ok with all three fields
degraded to "" and its date field is the ok empty string. -/
theorem c2_witness :
    ("" : String) = nhk_title_field (hl [Html.el "h1" [] (hl [Html.txt "T"])])
    ∧ ("" : String) = nhk_body_field (hl [Html.el "h1" [] (hl [Html.txt "T"])])
    ∧ nhk_date_field sampleNow (hl [Html.el "h1" [] (hl [Html.txt "T"])]) =
        .ok "" :=
  (c2_amended_field_isolation sampleNow
    (hl [Html.el "h1" [] (hl [Html.txt "T"])])).2.2.2.1 "" "" "" (by decide)




/-- C5 counterexample. On c5Page the adapter extracts "A" — the span text
of the first matching heading — while the claimed rule (last matching
heading, span stripped) yields "D". -/
theorem c5_counterexample :
    download_articles_nhk sampleNow c5Page = .ok ("A", "", "")
    ∧ spec_nhk_title c5Page = "D" := by decide

/-- C5 amended. Whenever the NHK adapter returns, the extracted title is
the text of the first span nested in the first heading of class
content--title (empty when either is missing). -/
theorem c5_amended_title_rule :
    ∀ (now : PyDT) (page : HtmlList) (t d b : String),
      download_articles_nhk now page = .ok (t, d, b) →
      t = spec_nhk_title_amended page := by
  intro now page t d b h
  rw [(nhk_ok_fields h).1]
  rfl

/-- Witness for c5_amended_title_rule at c5Page, where the adapter
returns title "A". -/
theorem c5_witness : ("A" : String) = spec_nhk_title_amended c5Page :=
  c5_amended_title_rule sampleNow c5Page "A" "" "" (by decide)

/-! ### Claim theorems: feed link extraction -/

theorem isPre_self_append (p t : List Char) : p.isPrefixOf (p ++ t) = true := by
  rw [List.isPrefixOf_iff_prefix]
  exact List.prefix_append p t

theorem splitFirst_self (p t : List Char) (hp : p ≠ []) :
    splitFirst p (p ++ t) = some ([], t) := by
  cases p with
  | nil => exact absurd rfl hp
  | cons c cs =>
    have hpre := isPre_self_append (c :: cs) t
    have hdrop := List.drop_left (c :: cs) t
    show splitFirst (c :: cs) (c :: (cs ++ t)) = some ([], t)
    unfold splitFirst
    rw [show c :: (cs ++ t) = (c :: cs) ++ t from rfl, hpre]
    simp [hdrop]

theorem isPre_length {p s : List Char} (h : p.isPrefixOf s = true) :
    p.length ≤ s.length :=
  (List.isPrefixOf_iff_prefix.mp h).length_le

theorem lastSplit_none_of_short (p : List Char) :
    ∀ s : List Char, s.length < p.length → lastSplit p s = none := by
  intro s
  induction s with
  | nil => intro h; rfl
  | cons c cs ih =>
    intro h
    have h1 : cs.length < p.length := by simp at h; omega
    have h2 : p.isPrefixOf (c :: cs) = false := by
      cases hx : p.isPrefixOf (c :: cs) with
      | false => rfl
      | true =>
        exfalso
        have := isPre_length hx
        simp at this h
        omega
    unfold lastSplit
    rw [ih h1, h2]
    rfl

theorem lastSplit_self_append (u : List Char) :
    lastSplit linkClose (u ++ linkClose) = some (u, []) := by
  induction u with
  | nil => decide
  | cons c u ih =>
    show lastSplit linkClose (c :: (u ++ linkClose)) = some (c :: u, [])
    unfold lastSplit
    rw [ih]

theorem lineSpansAux_nil (n : Nat) : lineSpansAux n [] = [] := by
  cases n with
  | zero => rfl
  | succ m => rfl

theorem lineSpans_mkLine (u : List Char) :
    lineSpans (linkOpen ++ u ++ linkClose) = [u] := by
  have hlen : (linkOpen ++ u ++ linkClose).length = u.length + 13 := by
    simp [linkOpen, linkClose]
  have step : ∀ (fuel : Nat) (s : List Char),
      lineSpansAux (fuel + 1) s =
        match splitFirst linkOpen s with
        | none => []
        | some pre_rest =>
          match lastSplit linkClose pre_rest.2 with
          | none => []
          | some mid_after => mid_after.1 :: lineSpansAux fuel mid_after.2 :=
    fun fuel s => rfl
  unfold lineSpans
  rw [hlen, show u.length + 13 = (u.length + 12) + 1 from rfl, step,
    List.append_assoc, splitFirst_self linkOpen (u ++ linkClose) (by decide)]
  simp [lastSplit_self_append, lineSpansAux_nil]

theorem splitOn_sepFree {sep : Char} : ∀ {s : List Char}, sep ∉ s →
    splitOn sep s = [s] := by
  intro s
  induction s with
  | nil => intro h; rfl
  | cons c cs ih =>
    intro h
    have hc : ¬ c = sep := fun e => h (by simp [e])
    have hcs : sep ∉ cs := fun m => h (by simp [m])
    unfold splitOn
    rw [if_neg hc, ih hcs]

theorem splitOn_append {sep : Char} (b : List Char) :
    ∀ {a : List Char}, sep ∉ a →
      splitOn sep (a ++ sep :: b) = a :: splitOn sep b := by
  intro a
  induction a with
  | nil =>
    intro h
    show splitOn sep (sep :: b) = [] :: splitOn sep b
    rw [splitOn, if_pos rfl]
  | cons c cs ih =>
    intro h
    have hc : ¬ c = sep := fun e => h (by simp [e])
    have hcs : sep ∉ cs := fun m => h (by simp [m])
    show splitOn sep (c :: (cs ++ sep :: b)) = (c :: cs) :: splitOn sep b
    rw [splitOn, if_neg hc, ih hcs]




theorem nl_not_mem_mkLine {u : List Char} (h : '\n' ∉ u) :
    '\n' ∉ mkLine u := by
  intro hm
  rw [mkLine] at hm
  rcases List.mem_append.mp hm with hm1 | hm2
  · rcases List.mem_append.mp hm1 with hm3 | hm4
    · exact absurd hm3 (by decide)
    · exact h hm4
  · exact absurd hm2 (by decide)

theorem spans_mkFeedL : ∀ (us : List (List Char)), (∀ u ∈ us, '\n' ∉ u) →
    ((splitOn '\n' (mkFeedL us)).map lineSpans).flatten = us := by
  intro us
  induction us with
  | nil => intro h; rfl
  | cons u vs ih =>
    intro h
    have h1 : '\n' ∉ mkLine u := nl_not_mem_mkLine (h u (by simp))
    cases vs with
    | nil =>
      show ((splitOn '\n' (mkLine u)).map lineSpans).flatten = [u]
      rw [splitOn_sepFree h1]
      simp only [List.map_cons, List.map_nil, List.flatten_cons,
        List.flatten_nil, List.append_nil]
      rw [mkLine]
      exact lineSpans_mkLine u
    | cons v ws =>
      have ih2 := ih (fun w hw => h w (by simp [hw]))
      show ((splitOn '\n' (mkLine u ++ '\n' :: mkFeedL (v :: ws))).map
        lineSpans).flatten = u :: v :: ws
      rw [splitOn_append _ h1]
      simp only [List.map_cons, List.flatten_cons]
      rw [ih2, show lineSpans (mkLine u) = [u] from by
        rw [mkLine]; exact lineSpans_mkLine u]
      rfl

theorem findall_mkFeed (us : List String) (h : ∀ u ∈ us, '\n' ∉ u.data) :
    findallLinkSpans (mkFeed us) = us := by
  unfold findallLinkSpans mkFeed
  rw [show (String.mk (mkFeedL (us.map String.data))).data =
    mkFeedL (us.map String.data) from rfl]
  rw [spans_mkFeedL (us.map String.data) ?hmem]
  · rw [List.map_map]
    rw [show ((fun l => String.mk l) ∘ String.data) = id from
      funext (fun s => rfl)]
    exact List.map_id us
  · intro l hlmem
    rcases List.mem_map.mp hlmem with ⟨w, hw, rfl⟩
    exact h w hw

theorem remove_guard_eq (b : String) (l : List String) :
    (if b ∈ l then l.erase b else l) = l.erase b := by
  split
  · rfl
  · exact (List.erase_of_not_mem (by assumption)).symm

theorem download_rss_nhk_ok (s : String) :
    download_rss_nhk (.ok s) =
      (findallLinkSpans s).erase "http://www3.nhk.or.jp/news/" := by
  unfold download_rss_nhk
  simp only [List.foldl_cons, List.foldl_nil]
  exact remove_guard_eq _ _

theorem download_rss_asahi_ok (s : String) :
    download_rss_asahi (.ok s) =
      (findallLinkSpans s).erase "https://www.asahi.com/" := by
  unfold download_rss_asahi
  simp only [List.foldl_cons, List.foldl_nil]
  exact remove_guard_eq _ _

/-- C7 counterexample. A feed in which the denylisted URL occurs twice:
list.remove deletes only the first occurrence, so the extractor output
still contains the denylisted URL, against the claim that every
occurrence is removed. -/
theorem c7_counterexample :
    download_rss_nhk (.ok ("<link>http://www3.nhk.or.jp/news/</link>\n" ++
        "<link>a</link>\n<link>http://www3.nhk.or.jp/news/</link>")) =
      ["a", "http://www3.nhk.or.jp/news/"] := by decide

/-- C7 amended. For any feed with one link element per newline-separated
line, both extractors return the link texts in document order with only
the first occurrence of the per-origin denylisted URL removed (duplicates
of article URLs preserved); in particular the five-occurrence scenario of
the claim, whose denylisted URL occurs once, yields the four article-URL
occurrences with the denylisted URL absent. -/
theorem c7_amended_link_extraction :
    (∀ us : List String, (∀ u ∈ us, '\n' ∉ u.data) →
      download_rss_nhk (.ok (mkFeed us)) =
        us.erase "http://www3.nhk.or.jp/news/"
      ∧ download_rss_asahi (.ok (mkFeed us)) =
        us.erase "https://www.asahi.com/")
    ∧ download_rss_nhk (.ok ("<link>http://www3.nhk.or.jp/news/</link>\n" ++
        "<link>u1</link>\n<link>u2</link>\n<link>u2</link>\n" ++
        "<link>u3</link>")) = ["u1", "u2", "u2", "u3"] := by
  constructor
  · intro us h
    constructor
    · rw [download_rss_nhk_ok, findall_mkFeed us h]
    · rw [download_rss_asahi_ok, findall_mkFeed us h]
  · decide

/-- Witness for c7_amended_link_extraction on a three-URL feed holding
the NHK denylisted URL once. -/
theorem c7_witness :
    download_rss_nhk
      (.ok (mkFeed ["x", "http://www3.nhk.or.jp/news/", "y"])) =
      ["x", "y"] := by
  have h := (c7_amended_link_extraction.1
    ["x", "http://www3.nhk.or.jp/news/", "y"] (by decide)).1
  rw [h]
  decide

/-- C10. The two RSS extractors run the same findall scan and differ only
in the denylist they remove from its result; on any fetched document in
which neither denylisted URL occurs among the extracted link texts, their
outputs are equal. -/
theorem c10_extractors_agree :
    ∀ s : String,
      "http://www3.nhk.or.jp/news/" ∉ findallLinkSpans s →
      "https://www.asahi.com/" ∉ findallLinkSpans s →
      download_rss_nhk (.ok s) = download_rss_asahi (.ok s) := by
  intro s h1 h2
  rw [download_rss_nhk_ok, download_rss_asahi_ok,
    List.erase_of_not_mem h1, List.erase_of_not_mem h2]

/-- Witness for c10_extractors_agree on a one-link feed. -/
theorem c10_witness :
    download_rss_nhk (.ok "<link>a</link>") =
      download_rss_asahi (.ok "<link>a</link>") :=
  c10_extractors_agree "<link>a</link>" (by decide) (by decide)
